import Mathlib

/-!
Verification of the Technical Indicator & Multi-Strategy Candidate Ranking
Engine of the trader-copilot repository.

The Python sources are shallowly embedded as follows:

* Python `str` values become Lean `String`; every Python string method used
  by the source (`upper`, `replace`, `strip`, `endswith`, slicing, `split`)
  is re-implemented structurally over `String.data` (the underlying
  `List Char`) so that all definitions are executable and kernel-reducible.
  The inputs handled by the program are ASCII, so `upper`/`strip` are
  modelled on ASCII characters.
* Python floats become `ℚ`; `round(x, n)` becomes `roundTo n x`
  (round-half-up on rationals; Python's float rounding is banker's
  rounding, which agrees except on exact ties of the scaled value).
* Python `datetime.date` becomes a `Date` record; `date1 <= date2` is the
  field-lexicographic comparison CPython uses, and `(d2 - d1).days` is the
  difference of proleptic-Gregorian ordinals (`Date.toOrdinal`, matching
  `datetime.date.toordinal`).
* External collaborators (yfinance fetches, the indicator library living in
  `tools/technical.py`, `tools/fundamental_data.py`, `tools/market_data.py`)
  are passed in as oracle functions bundled in a `Collaborators` record;
  the claims under verification only concern the orchestration logic in
  `dividend_agent.py`, `scanner_agent.py` and `tools/dividend_data.py`,
  which is embedded in full.
* Python `list.sort(key=f)` is a stable ascending sort by `f`; it is
  modelled by `List.insertionSort` with relation `f a ≤ f b`, which is the
  same stable sort extensionally. `reverse=True` keeps ties in original
  order in Python, which coincides with a stable ascending sort by the
  negated key.
-/

namespace TraderCopilot

attribute [local semireducible] Rat.add Rat.mul Rat.sub Rat.inv

/-! ## Python string primitives (ASCII fragment), over `List Char` -/

/-- Uppercase one ASCII character, as Python `str.upper` does on ASCII. -/
def upperChar (c : Char) : Char :=
  if 'a' ≤ c ∧ c ≤ 'z' then Char.ofNat (c.toNat - 32) else c

/-- Python `s.upper()` (ASCII fragment). -/
def pyUpper (s : String) : String := String.mk (s.data.map upperChar)

/-- Python whitespace characters stripped by `str.strip()` (ASCII fragment). -/
def isPySpace (c : Char) : Bool :=
  c = ' ' ∨ c = '\t' ∨ c = '\n' ∨ c = '\r' ∨ c = '\x0b' ∨ c = '\x0c'

/-- Python `s.strip()` (ASCII fragment). -/
def pyStrip (s : String) : String :=
  String.mk (((s.data.dropWhile isPySpace).reverse.dropWhile isPySpace).reverse)

/-- Fuel-indexed worker for `pyReplace`; consumes at least one character per
step, so `s.length` fuel always suffices. -/
def replaceAux (pat rep : List Char) : ℕ → List Char → List Char
  | 0, s => s
  | _ + 1, [] => []
  | fuel + 1, c :: rest =>
    if pat.isPrefixOf (c :: rest) then
      rep ++ replaceAux pat rep fuel ((c :: rest).drop pat.length)
    else
      c :: replaceAux pat rep fuel rest

/-- Python `s.replace(pat, rep)`: replace every non-overlapping occurrence of
`pat`, scanning left to right. The sources only call it with non-empty
patterns, so the empty-pattern case just returns `s`. -/
def pyReplace (s pat rep : String) : String :=
  if pat.data = [] then s
  else String.mk (replaceAux pat.data rep.data s.data.length s.data)

/-- Python `s.endswith(suffix)`. -/
def pyEndsWith (s suffix : String) : Bool := suffix.data.isSuffixOf s.data

/-- Python `s[:n]` for `n ≥ 0`. -/
def pyTake (s : String) (n : ℕ) : String := String.mk (s.data.take n)

/-- Python `s[:-n]` for `n > 0` (drop the last `n` characters). -/
def pyDropRight (s : String) (n : ℕ) : String :=
  String.mk (s.data.take (s.data.length - n))

/-- Python `len(s)`. -/
def pyLen (s : String) : ℕ := s.data.length

/-- Python `s.split(sep)` for a one-character separator: splits on every
occurrence, keeping empty pieces (`"".split(",") == [""]`). -/
def splitAux (sep : Char) : List Char → List Char → List String
  | acc, [] => [String.mk acc.reverse]
  | acc, c :: rest =>
    if c = sep then String.mk acc.reverse :: splitAux sep [] rest
    else splitAux sep (c :: acc) rest

/-- Python `s.split(sep)` for a one-character separator string. -/
def pySplit (s : String) (sep : Char) : List String := splitAux sep [] s.data

/-! ## Symbol Resolver (`_try_fix_symbol` in `tools/dividend_data.py`) -/

/-- Raw candidate list generated by `_try_fix_symbol`, before the per-element
strip / non-empty / de-duplication pass: base form, space-stripped,
hyphen-stripped, first-ten-characters, then conditionally the base minus an
`LTD` or `LIMITED` suffix and the base plus an `IND` suffix. -/
def fixCandidatesRaw (rawSymbol : String) : List String :=
  let base := pyReplace (pyUpper rawSymbol) ".NS" ""
  [base, pyReplace base " " "", pyReplace base "-" "", pyTake base 10]
    ++ (if pyEndsWith base "LTD" then [pyDropRight base 3] else [])
    ++ (if pyEndsWith base "LIMITED" then [pyDropRight base 7] else [])
    ++ (if ¬ pyEndsWith base "IND" ∧ pyLen base ≤ 15 then [base ++ "IND"] else [])

/-- The `seen`-set loop of `_try_fix_symbol`: strip each candidate, drop empty
ones and ones already seen, preserving first-occurrence order. -/
def dedupLoop (seen : List String) : List String → List String
  | [] => []
  | c :: rest =>
    let c := pyStrip c
    if c = "" then dedupLoop seen rest
    else if seen.contains c then dedupLoop seen rest
    else c :: dedupLoop (c :: seen) rest

/-- The ordered, de-duplicated candidate list actually tried (before the
`.NS` suffix is appended and the live-quote validation runs). -/
def triedCandidates (rawSymbol : String) : List String :=
  dedupLoop [] (fixCandidatesRaw rawSymbol)

/-- Model of `_try_fix_symbol`: return the first candidate whose `.NS`-suffixed form
passes the live-quote validation oracle `v` (`_validate_symbol`), else none. -/
def tryFixSymbol (v : String → Bool) (rawSymbol : String) : Option String :=
  (triedCandidates rawSymbol).findSome? fun c =>
    let sym := c ++ ".NS"
    if v sym then some sym else none

/-! ## Calendar dates (`datetime.date`) -/

/-- A calendar date, mirroring `datetime.date` (year/month/day). -/
structure Date where
  year : ℕ
  month : ℕ
  day : ℕ
deriving DecidableEq, Repr

/-- Gregorian leap-year test, as `calendar.isleap` / `datetime` use. -/
def isLeap (y : ℕ) : Bool := (y % 4 = 0 ∧ y % 100 ≠ 0) ∨ y % 400 = 0

/-- Number of days in a month (month is 1-12). -/
def daysInMonth (y m : ℕ) : ℕ :=
  if m = 2 then (if isLeap y then 29 else 28)
  else if m = 4 ∨ m = 6 ∨ m = 9 ∨ m = 11 then 30
  else 31

/-- Days in year `y` strictly before month `m` (month is 1-12). -/
def daysBeforeMonth (y m : ℕ) : ℕ :=
  let lp : ℕ := if isLeap y then 1 else 0
  match m with
  | 1 => 0 | 2 => 31 | 3 => 59 + lp | 4 => 90 + lp | 5 => 120 + lp | 6 => 151 + lp
  | 7 => 181 + lp | 8 => 212 + lp | 9 => 243 + lp | 10 => 273 + lp | 11 => 304 + lp
  | _ => 334 + lp

/-- Proleptic Gregorian ordinal of a date, exactly `datetime.date.toordinal`
(0001-01-01 has ordinal 1). Python's `(d2 - d1).days` equals
`toOrdinal d2 - toOrdinal d1` for valid dates. -/
def Date.toOrdinal (d : Date) : ℕ :=
  let n := d.year - 1
  365 * n + n / 4 - n / 100 + n / 400 + daysBeforeMonth d.year d.month + d.day

/-- Ordinal as an integer, for day differences. -/
def Date.ord (d : Date) : ℤ := (d.toOrdinal : ℤ)

/-- CPython `date.__le__`: field-lexicographic comparison on (y, m, d). -/
def dateLe (a b : Date) : Bool :=
  if a.year = b.year then
    (if a.month = b.month then a.day ≤ b.day else a.month < b.month)
  else a.year < b.year

/-! ## `%Y-%m-%d` parsing (`datetime.strptime(s, "%Y-%m-%d").date()`)

CPython compiles the format into the regex `\d\d\d\d-(1[0-2]|0[1-9]|[1-9])-`
`(3[01]|[12]\d|0[1-9]|[1-9])`, requires the whole string to be consumed, and
then the `datetime` constructor validates the day against the month length
and the year against MINYEAR = 1. -/

/-- Digit value of an ASCII character, if it is a digit. -/
def digitVal (c : Char) : Option ℕ :=
  if '0' ≤ c ∧ c ≤ '9' then some (c.toNat - 48) else none

/-- Read exactly four digits (the `%Y` pattern `\d\d\d\d`). -/
def readYear : List Char → Option (ℕ × List Char)
  | a :: b :: c :: d :: rest => do
    let va ← digitVal a
    let vb ← digitVal b
    let vc ← digitVal c
    let vd ← digitVal d
    pure (va * 1000 + vb * 100 + vc * 10 + vd, rest)
  | _ => none

/-- Read a month per the `%m` pattern `1[0-2]|0[1-9]|[1-9]` (two-digit
alternatives first, then a bare nonzero digit). -/
def readMonth : List Char → Option (ℕ × List Char)
  | '1' :: c :: rest =>
    if '0' ≤ c ∧ c ≤ '2' then some (10 + (c.toNat - 48), rest) else some (1, c :: rest)
  | '0' :: c :: rest =>
    if '1' ≤ c ∧ c ≤ '9' then some (c.toNat - 48, rest) else none
  | c :: rest =>
    if '1' ≤ c ∧ c ≤ '9' then some (c.toNat - 48, rest) else none
  | [] => none

/-- Read a day per the `%d` pattern `3[01]|[12]\d|0[1-9]|[1-9]`. -/
def readDay : List Char → Option (ℕ × List Char)
  | '3' :: c :: rest =>
    if c = '0' ∨ c = '1' then some (30 + (c.toNat - 48), rest) else some (3, c :: rest)
  | '2' :: c :: rest =>
    if '0' ≤ c ∧ c ≤ '9' then some (20 + (c.toNat - 48), rest) else some (2, c :: rest)
  | '1' :: c :: rest =>
    if '0' ≤ c ∧ c ≤ '9' then some (10 + (c.toNat - 48), rest) else some (1, c :: rest)
  | '0' :: c :: rest =>
    if '1' ≤ c ∧ c ≤ '9' then some (c.toNat - 48, rest) else none
  | c :: rest =>
    if '1' ≤ c ∧ c ≤ '9' then some (c.toNat - 48, rest) else none
  | [] => none

/-- Expect one literal character. -/
def expectChar (c : Char) : List Char → Option (List Char)
  | d :: rest => if d = c then some rest else none
  | [] => none

/-- Parse `YYYY-MM-DD` exactly as `datetime.strptime(s, "%Y-%m-%d").date()`:
regex match, full consumption, then constructor validation (year ≥ 1, day
within the month). Returns `none` where Python raises `ValueError`. -/
def parseDate (s : String) : Option Date := do
  let (y, r1) ← readYear s.data
  let r2 ← expectChar '-' r1
  let (m, r3) ← readMonth r2
  let r4 ← expectChar '-' r3
  let (d, r5) ← readDay r4
  if r5 = [] ∧ 1 ≤ y ∧ 1 ≤ d ∧ d ≤ daysInMonth y m then pure ⟨y, m, d⟩ else none

/-! ## Response Extractor: JSON-array span location
(`_parse_gemini_dividend_response`, lines 253-263)

The code runs `re.search(r"\[[\s\S]*\]", text)`: a greedy match that starts
at the first `[` which has some `]` after it and extends to the last `]` of
the text. This is *not* balanced bracket matching. -/

/-- Longest prefix ending at the last `]`, or `none` when no `]` occurs. -/
def takeToLastRBracket (s : List Char) : Option (List Char) :=
  let r := s.reverse.dropWhile (fun c => c ≠ ']')
  if r = [] then none else some r.reverse

/-- The span matched by `re.search(r"\[[\s\S]*\]", text)`: from the first
`[` to the last `]` of the text, or `none` when the regex does not match. -/
def graspSpan (s : List Char) : Option (List Char) :=
  takeToLastRBracket (s.dropWhile (fun c => c ≠ '['))

/-- String-level wrapper for `graspSpan`. -/
def extractJsonSpan (s : String) : Option String :=
  (graspSpan s.data).map String.mk

/-! ## Response Extractor: per-item processing
(`_parse_gemini_dividend_response`, lines 265-309) -/

/-- One element of the decoded JSON array, with the fields the code reads.
String fields model `item.get(key, "")` (absent or JSON-null both behave as
the empty string in the code's truthiness tests). A non-dict array element
is modelled as `none` at the use site (`List (Option DivItem)`). -/
structure DivItem where
  company_name : String
  nse_symbol : String
  ex_date : String
  dividend_amount_rs : Option ℚ
  dividend_type : Option String
  announcement_date : Option String
deriving DecidableEq, Repr

/-- An extracted dividend candidate (the dict appended to `candidates`).
The code stores `ex_date.isoformat()`; the model keeps the parsed `Date`
value, which carries the same information for valid dates. The constant
`"source": "gemini_search"` field is omitted. -/
structure OutCand where
  company : String
  symbol : Option String
  dividend_amount_rs : Option ℚ
  dividend_type : Option String
  announcement_date : Option String
  ex_date : Date
  days_to_ex_date : ℤ
deriving DecidableEq, Repr

/-- The symbol normalization step: `if symbol and not
symbol.upper().endswith(".NS"): symbol = symbol.upper() + ".NS"`. -/
def normalizeSymbol (s : String) : String :=
  if s ≠ "" ∧ ¬ pyEndsWith (pyUpper s) ".NS" then pyUpper s ++ ".NS" else s

/-- The candidate dict appended for an item that survived all filters, with
`sym` the symbol after normalization and (possibly) repair: an empty symbol
is stored as `None` ("company found, ticker unknown"). -/
def buildOut (it : DivItem) (sym : String) (ex today : Date) : OutCand :=
  { company := it.company_name
    symbol := if sym ≠ "" then some sym else none
    dividend_amount_rs := it.dividend_amount_rs
    dividend_type := it.dividend_type
    announcement_date := it.announcement_date
    ex_date := ex
    days_to_ex_date := ex.ord - today.ord }

/-- The symbol-validation tail of the item loop (lines 285-306): when the
normalized symbol is non-empty and fails validation `v`, attempt
`_try_fix_symbol`; an unrepairable symbol drops the item (`continue`). -/
def processItemSym (v : String → Bool) (today : Date) (it : DivItem) (ex : Date) :
    Option OutCand :=
  let symbol := normalizeSymbol it.nse_symbol
  if symbol ≠ "" ∧ ¬ v symbol then
    match tryFixSymbol v symbol with
    | some fixed => some (buildOut it fixed ex today)
    | none => none
  else some (buildOut it symbol ex today)

/-- Process one JSON array element (the body of the `for item in data` loop):
require a non-empty company name and a parseable ex-date strictly after
`today`; then run the symbol-validation tail. Returns `none` where the loop
`continue`s. -/
def processItem (v : String → Bool) (today : Date) : Option DivItem → Option OutCand
  | none => none
  | some it =>
    if it.company_name = "" ∨ it.ex_date = "" then none
    else
      match parseDate it.ex_date with
      | none => none
      | some ex =>
        if dateLe ex today then none
        else processItemSym v today it ex

/-- Stable ascending sort by a key, the model of Python `list.sort(key=f)`.
Python's sort is stable, and a stable sort by a key is extensionally unique,
so insertion sort is a faithful model. -/
def sortByKey {α β : Type} [LinearOrder β] (key : α → β) (l : List α) : List α :=
  l.insertionSort (fun a b => key a ≤ key b)

/-- The extracted candidate list in discovery order (before the final sort). -/
def parseItemsRaw (v : String → Bool) (today : Date) (data : List (Option DivItem)) :
    List OutCand :=
  data.filterMap (processItem v today)

/-- The Response Extractor's item pipeline: filter/validate each element,
then `candidates.sort(key=lambda c: c["days_to_ex_date"])`. -/
def parseItems (v : String → Bool) (today : Date) (data : List (Option DivItem)) :
    List OutCand :=
  sortByKey (fun c => c.days_to_ex_date) (parseItemsRaw v today data)

/-! ## Shared numeric helpers -/

/-- Python `round(x, nd)` on the rational model: round `x·10^nd` to the
nearest integer and scale back. Mathlib's `round` resolves exact ties
upward while Python's float `round` uses banker's rounding; the two agree
except on exact ties of the scaled value. -/
def roundTo (nd : ℕ) (x : ℚ) : ℚ := (round (x * 10 ^ nd) : ℚ) / 10 ^ nd

/-! ## External collaborator contracts (§6 of the spec)

These functions live outside `src/` (`tools/market_data.py`,
`tools/technical.py`, `tools/fundamental_data.py`) or perform network I/O;
the scans under verification only branch on their result envelopes, so they
are passed in as oracles. -/

/-- Result envelope of `fetch_stock_data`. -/
structure StockData where
  status : String
  symbol : String
  closes : List ℚ
  highs : List ℚ
  lows : List ℚ
  volumes : List ℚ
  error_message : Option String
deriving Repr

/-- Result envelope of `assess_dividend_health`. Optional fields model
`dict.get` with defaults at the call sites (`"CAUTION"`, `0`). -/
structure HealthResult where
  status : String
  dividend_health : Option String
  health_score : Option ℚ
  reasons : List String
deriving Repr

/-- Result envelope of `compute_index_metrics`. -/
structure MetricsResult where
  status : String
  dma_50 : ℚ
  dma_50_slope : ℚ
  return_20d : ℚ
deriving Repr

/-- The `fundamentals` payload of `get_stock_fundamentals`. -/
structure Fundamentals where
  dividendYield : Option ℚ
  trailingPE : Option ℚ
deriving Repr

/-- Result envelope of `get_stock_fundamentals`; `fundamentals` models
`result.get("fundamentals", {})` (an absent payload is the record with all
fields `none`). -/
structure FundResult where
  status : String
  fundamentals : Fundamentals
deriving Repr

/-- Result envelope of `detect_breakout`. `volume_ratio` is optional because
the caller reads it with `x.get("volume_ratio", 0)`. -/
structure BreakoutResult where
  status : String
  is_breakout : Bool
  volume_ratio : Option ℚ
deriving Repr, DecidableEq

/-- The bundle of external collaborators used by the scans. -/
structure Collaborators where
  fetchStock : String → StockData
  health : String → HealthResult
  metrics : List ℚ → MetricsResult
  atr : List ℚ → List ℚ → List ℚ → ℚ
  fund : String → FundResult
  rsi : List ℚ → ℕ → Option ℚ
  detect : String → List ℚ → List ℚ → List ℚ → List ℚ → BreakoutResult

/-! ## Dividend opportunity scan
(`dividend_agent.scan_dividend_opportunities`) -/

/-- One discovered candidate as produced by `search_upcoming_dividends`
(`candidates` list). Fields mirror the keys the scan reads; the search step
always populates them, so the `dict.get` defaults never fire. -/
structure InCand where
  company : String
  symbol : Option String
  ex_date : String
  days_to_ex_date : ℤ
  dividend_amount_rs : Option ℚ
  announcement_date : Option String
deriving DecidableEq, Repr

/-- Why a candidate was routed to `skipped`. Each constructor stands for the
code's `skip_reason` string: `symbolNotIdentified` ↔ "NSE symbol not
identified by search", `dataUnavailable` ↔ "yfinance data not available",
`desperate s` ↔ f"DESPERATE dividend (score {s})", `priceFetchFailed` ↔
"price history fetch failed", `insufficientHistory` ↔ "insufficient price
history". -/
inductive SkipReason where
  | symbolNotIdentified
  | dataUnavailable
  | desperate (score : ℚ)
  | priceFetchFailed
  | insufficientHistory
deriving DecidableEq, Repr

/-- A `skipped` entry: the `base` dict plus `skip_reason`. -/
structure Skip where
  company : String
  symbol : Option String
  ex_date : String
  days_to_ex : ℤ
  dividend_amount_rs : Option ℚ
  announcement_date : Option String
  skip_reason : SkipReason
deriving DecidableEq, Repr

/-- An `opportunities` entry (the dict built at lines 130-148). -/
structure Opp where
  company : String
  symbol : Option String
  ex_date : String
  days_to_ex : ℤ
  dividend_amount_rs : Option ℚ
  announcement_date : Option String
  dividend_health : String
  health_score : ℚ
  health_reasons : List String
  dividend_yield_pct : Option ℚ
  trailing_pe : Option ℚ
  current_price : ℚ
  dma_50 : ℚ
  above_50dma : Bool
  uptrend : Bool
  return_20d_pct : ℚ
  atr : ℚ
  suggested_entry : ℚ
  suggested_stop : ℚ
  rank_score : ℚ
deriving DecidableEq, Repr

/-- The `base` skip record for a candidate. -/
def mkSkip (c : InCand) (r : SkipReason) : Skip :=
  { company := c.company, symbol := c.symbol, ex_date := c.ex_date
    days_to_ex := c.days_to_ex_date, dividend_amount_rs := c.dividend_amount_rs
    announcement_date := c.announcement_date, skip_reason := r }

/-- The yield contribution to the rank score: `if div_yield and
div_yield > 0: rank_score += div_yield * 10`. -/
def yieldBonus : Option ℚ → ℚ
  | some y => if 0 < y then y * 10 else 0
  | none => 0

/-- Python float truthiness guard used for the displayed (rounded) optional
fields: `round(x, 2) if x else None`. -/
def roundIfTruthy (x : Option ℚ) : Option ℚ :=
  match x with
  | some y => if y ≠ 0 then some (roundTo 2 y) else none
  | none => none

/-- The unrounded composite rank score (lines 120-128): `health_score`
plus `div_yield*10` when positive, `+15` for an uptrend, `+10` above the
50-DMA, `+10` when at least 5 days remain to the ex-date. -/
def rankScore (healthScore : ℚ) (divYield : Option ℚ) (uptrend above50 : Bool)
    (daysLeft : ℤ) : ℚ :=
  healthScore + yieldBonus divYield
    + (if uptrend then 15 else 0) + (if above50 then 10 else 0)
    + (if 5 ≤ daysLeft then 10 else 0)

/-- The opportunity dict built at lines 130-148 for a fully analyzed
candidate `c` with resolved symbol `sym`, in terms of the collaborators. -/
def divOppRecord (O : Collaborators) (c : InCand) (sym : String) : Opp :=
  let h := O.health sym
  let sd := O.fetchStock sym
  let m := O.metrics sd.closes
  let lastClose := sd.closes.getLastD 0
  let above_50dma : Bool := m.dma_50 < lastClose
  let uptrend : Bool := 0 < m.dma_50_slope
  let atr := O.atr sd.highs sd.lows sd.closes
  let fd := (O.fund sym).fundamentals
  { company := c.company, symbol := some sym, ex_date := c.ex_date
    days_to_ex := c.days_to_ex_date
    dividend_amount_rs := c.dividend_amount_rs
    announcement_date := c.announcement_date
    dividend_health := h.dividend_health.getD "CAUTION"
    health_score := h.health_score.getD 0
    health_reasons := h.reasons
    dividend_yield_pct := roundIfTruthy fd.dividendYield
    trailing_pe := roundIfTruthy fd.trailingPE
    current_price := roundTo 2 lastClose
    dma_50 := roundTo 2 m.dma_50
    above_50dma := above_50dma, uptrend := uptrend
    return_20d_pct := roundTo 2 (m.return_20d * 100)
    atr := roundTo 2 atr
    suggested_entry := roundTo 2 lastClose
    suggested_stop := roundTo 2 (lastClose - 3/2 * atr)
    rank_score := roundTo 1 (rankScore (h.health_score.getD 0) fd.dividendYield
      uptrend above_50dma c.days_to_ex_date) }

/-- The body of the `for candidate in filtered` loop: every candidate is
routed either to `skipped` (`Sum.inl`) or to `opportunities` (`Sum.inr`). -/
def processDivCand (O : Collaborators) (c : InCand) : Skip ⊕ Opp :=
  match c.symbol with
  | none => .inl (mkSkip c .symbolNotIdentified)
  | some sym =>
    let h := O.health sym
    if h.status ≠ "success" then .inl (mkSkip c .dataUnavailable)
    else if h.dividend_health.getD "CAUTION" = "DESPERATE" then
      .inl (mkSkip c (.desperate (h.health_score.getD 0)))
    else if (O.fetchStock sym).status ≠ "success" then .inl (mkSkip c .priceFetchFailed)
    else if (O.metrics (O.fetchStock sym).closes).status ≠ "success" then
      .inl (mkSkip c .insufficientHistory)
    else .inr (divOppRecord O c sym)

/-- Model of `filtered = [c for c in candidates if c["days_to_ex_date"] >= min_days_to_ex]`. -/
def filteredCands (minDays : ℤ) (cands : List InCand) : List InCand :=
  cands.filter (fun c => minDays ≤ c.days_to_ex_date)

/-- The `opportunities` list in discovery order (before the rank sort). -/
def divOppsRaw (O : Collaborators) (minDays : ℤ) (cands : List InCand) : List Opp :=
  (filteredCands minDays cands).filterMap (fun c => (processDivCand O c).getRight?)

/-- The `skipped` list, in discovery order. -/
def divSkipped (O : Collaborators) (minDays : ℤ) (cands : List InCand) : List Skip :=
  (filteredCands minDays cands).filterMap (fun c => (processDivCand O c).getLeft?)

/-- Model of `opportunities.sort(key=lambda x: x.get("rank_score", 0), reverse=True)`:
Python's descending stable sort keeps equal keys in original order, which is
the stable ascending sort by the negated key. -/
def divOpps (O : Collaborators) (minDays : ℤ) (cands : List InCand) : List Opp :=
  sortByKey (fun o => -o.rank_score) (divOppsRaw O minDays cands)

/-- A `skipped_summary` entry. -/
structure SkipSummary where
  symbol : Option String
  company : String
  reason : SkipReason
deriving DecidableEq, Repr

/-- The success envelope of `scan_dividend_opportunities` (non-empty
candidate path), keeping the fields with algorithmic content. -/
structure DivScanSuccess where
  dividends_discovered : ℕ
  analyzed : ℕ
  opportunities_count : ℕ
  top_opportunities : List Opp
  skipped_count : ℕ
  skipped_summary : List SkipSummary
deriving Repr

/-- Lines 56-169 of `dividend_agent.py`: analyze the filtered candidates,
sort the opportunities, and assemble the success envelope (with the
`[:8]` / `[:10]` presentation truncations). -/
def scanCore (O : Collaborators) (minDays : ℤ) (cands : List InCand) : DivScanSuccess :=
  let opps := divOpps O minDays cands
  let skipped := divSkipped O minDays cands
  { dividends_discovered := cands.length
    analyzed := (filteredCands minDays cands).length
    opportunities_count := opps.length
    top_opportunities := opps.take 8
    skipped_count := skipped.length
    skipped_summary := (skipped.map fun s =>
      { symbol := s.symbol, company := s.company, reason := s.skip_reason }).take 10 }

/-- Overall outcome of `scan_dividend_opportunities`. -/
inductive DivScanResult where
  | error (msg : String)
  | noCandidates
  | success (r : DivScanSuccess)

/-- Model of `scan_dividend_opportunities`: bail out on a failed discovery call, give
the empty-message envelope when nothing was discovered, otherwise run the
analysis pipeline. `searchStatus`/`searchError`/`cands` stand for the fields
of the `search_upcoming_dividends()` result dict. -/
def scanDividendOpportunities (O : Collaborators) (minDays : ℤ)
    (searchStatus : String) (searchError : String) (cands : List InCand) :
    DivScanResult :=
  if searchStatus ≠ "success" then
    .error ("Dividend discovery failed: " ++ searchError)
  else if cands = [] then .noCandidates
  else .success (scanCore O minDays cands)

/-! ## Breakout scan (`scanner_agent.scan_watchlist_breakouts`) -/

/-- Success envelope of the breakout scan. -/
structure BScanResult where
  status : String
  stocks_scanned : ℕ
  breakout_count : ℕ
  candidates : List BreakoutResult
  scan_errors : Option (List String)
deriving Repr

/-- The `for sym in symbols` loop of `scan_watchlist_breakouts`, returning
(`scanned`, `errors`, `candidates`) in iteration order. A failed fetch is
recorded as `f"{sym}: {error_message}"` and the loop continues. -/
def breakoutLoop (O : Collaborators) : List String → List String × List String × List BreakoutResult
  | [] => ([], [], [])
  | sym :: rest =>
    let prev := breakoutLoop O rest
    let d := O.fetchStock sym
    if d.status ≠ "success" then
      (prev.1, (sym ++ ": " ++ d.error_message.getD "fetch failed") :: prev.2.1, prev.2.2)
    else
      let r := O.detect d.symbol d.closes d.volumes d.highs d.lows
      if r.status = "success" ∧ r.is_breakout then (sym :: prev.1, prev.2.1, r :: prev.2.2)
      else (sym :: prev.1, prev.2.1, prev.2.2)

/-- Model of `scan_watchlist_breakouts` on an already-resolved symbol universe. -/
def scanBreakoutCore (O : Collaborators) (symbols : List String) : BScanResult :=
  let loop := breakoutLoop O symbols
  let cands := sortByKey (fun r => -(r.volume_ratio.getD 0)) loop.2.2
  { status := "success"
    stocks_scanned := loop.1.length
    breakout_count := cands.length
    candidates := cands
    scan_errors := if loop.2.1 = [] then none else some loop.2.1 }

/-- Model of `scan_watchlist_breakouts`: parse the comma-separated watchlist argument
(falling back to the default watchlist, a config constant passed in here),
then scan. -/
def scanWatchlistBreakouts (O : Collaborators) (defaultWatchlist : List String)
    (watchlist : String) : BScanResult :=
  let symbols :=
    if pyStrip watchlist ≠ "" then (pySplit watchlist ',').map pyStrip
    else defaultWatchlist
  scanBreakoutCore O symbols

/-! ## Oversold bounce scan (`scanner_agent.scan_oversold_bounce`) -/

/-- An oversold-bounce candidate dict (constant `strategy_note` omitted). -/
structure OsCand where
  symbol : String
  close : ℚ
  rsi : ℚ
  dma_50 : ℚ
  below_50dma : Bool
  pct_below_50dma : ℚ
  atr : ℚ
  suggested_stop : ℚ
deriving DecidableEq, Repr

/-- The tail of the oversold loop body once the RSI value `r` is known:
threshold check, metrics check, optional below-50-DMA requirement, then the
candidate dict. The stop is `round(max(0.01, close - 0.8*atr), 2)`. -/
def oversoldTail (O : Collaborators) (rsiMax : ℚ) (requireBelow : Bool)
    (sym : String) (r : ℚ) : Option OsCand :=
  let d := O.fetchStock sym
  if rsiMax < r then none
  else
    let m := O.metrics d.closes
    if m.status ≠ "success" then none
    else
      let dma := m.dma_50
      let close := d.closes.getLastD 0
      let below := close < dma
      if requireBelow ∧ ¬ below then none
      else
        let atr := O.atr d.highs d.lows d.closes
        some
          { symbol := d.symbol
            close := roundTo 2 close
            rsi := r
            dma_50 := roundTo 2 dma
            below_50dma := below
            pct_below_50dma := if dma ≠ 0 then roundTo 2 ((1 - close / dma) * 100) else 0
            atr := roundTo 2 atr
            suggested_stop := roundTo 2 (max (1/100) (close - 4/5 * atr)) }

/-- The per-symbol body of `scan_oversold_bounce` after a successful fetch:
`none` models every `continue` (too little history, RSI missing or above
the threshold, metrics failure, or above the 50-DMA when
`require_below_50dma`). -/
def oversoldStep (O : Collaborators) (rsiMax : ℚ) (requireBelow : Bool)
    (sym : String) : Option OsCand :=
  let d := O.fetchStock sym
  if d.closes.length < 60 then none
  else
    match O.rsi d.closes 14 with
    | none => none
    | some r => oversoldTail O rsiMax requireBelow sym r

/-- The oversold candidates in iteration order: symbols whose fetch
succeeded and whose data passed every filter. -/
def oversoldCandsRaw (O : Collaborators) (rsiMax : ℚ) (requireBelow : Bool)
    (symbols : List String) : List OsCand :=
  (symbols.filter (fun s => (O.fetchStock s).status = "success")).filterMap
    (oversoldStep O rsiMax requireBelow)

/-- The final oversold candidate list:
`candidates.sort(key=lambda x: x.get("rsi", 100))`. -/
def oversoldCands (O : Collaborators) (rsiMax : ℚ) (requireBelow : Bool)
    (symbols : List String) : List OsCand :=
  sortByKey (fun c => c.rsi) (oversoldCandsRaw O rsiMax requireBelow symbols)

/-! ## Generic facts about the stable-sort model -/

theorem sortByKey_perm {α β : Type} [LinearOrder β] (key : α → β) (l : List α) :
    List.Perm (sortByKey key l) l :=
  List.perm_insertionSort _ l

theorem sortByKey_sorted {α β : Type} [LinearOrder β] (key : α → β) (l : List α) :
    (sortByKey key l).Pairwise (fun a b => key a ≤ key b) :=
  @List.sorted_insertionSort α (fun a b => key a ≤ key b) _
    ⟨fun a b => le_total (key a) (key b)⟩
    ⟨fun _ _ _ hab hbc => le_trans hab hbc⟩ l

theorem filter_orderedInsert {α β : Type} [LinearOrder β] (key : α → β) (k : β)
    (x : α) (l : List α) :
    (List.orderedInsert (fun a b => key a ≤ key b) x l).filter
        (fun a => decide (key a = k))
      = (if key x = k then [x] else []) ++ l.filter (fun a => decide (key a = k)) := by
  induction l with
  | nil =>
    by_cases hk : key x = k <;> simp [List.orderedInsert, hk]
  | cons y ys ih =>
    have hoi : List.orderedInsert (fun a b => key a ≤ key b) x (y :: ys)
        = if key x ≤ key y then x :: y :: ys
          else y :: List.orderedInsert (fun a b => key a ≤ key b) x ys := rfl
    by_cases hxy : key x ≤ key y
    · rw [hoi, if_pos hxy]
      by_cases hk : key x = k <;> simp [hk, List.filter_cons]
    · rw [hoi, if_neg hxy]
      have hlt : key y < key x := lt_of_not_le hxy
      by_cases hk : key x = k
      · have hyk : ¬ (key y = k) := by
          rw [← hk]; exact ne_of_lt hlt
        rw [List.filter_cons, if_neg (by simp [hyk]), ih]
        simp [hk, List.filter_cons, hyk]
      · by_cases hyk : key y = k <;>
          simp [List.filter_cons, hyk, ih, hk]

theorem sortByKey_stable {α β : Type} [LinearOrder β] (key : α → β) (k : β)
    (l : List α) :
    (sortByKey key l).filter (fun a => decide (key a = k))
      = l.filter (fun a => decide (key a = k)) := by
  induction l with
  | nil => rfl
  | cons x xs ih =>
    have : sortByKey key (x :: xs)
        = List.orderedInsert (fun a b => key a ≤ key b) x (sortByKey key xs) := rfl
    rw [this, filter_orderedInsert, ih]
    by_cases hk : key x = k <;> simp [hk, List.filter_cons]

theorem dropWhile_append_of_forall {α : Type} (p : α → Bool) (l1 l2 : List α)
    (h : ∀ c ∈ l1, p c = true) :
    (l1 ++ l2).dropWhile p = l2.dropWhile p := by
  induction l1 with
  | nil => rfl
  | cons a l ih =>
    rw [List.cons_append, List.dropWhile_cons, if_pos (h a (by simp))]
    exact ih fun c hc => h c (by simp [hc])

/-! ## Claim C2: symbol-repair candidates for "TATA MOTORS LTD" -/

/-- C2 counterexample: the claim asserts that candidate generation for
`"TATA MOTORS LTD"` produces `"TATAMOTORS"` (space and LTD suffix both
stripped) somewhere in its ordered, de-duplicated candidate list. It does
not: the space-stripped and suffix-stripped variants are generated
independently from the base string and never composed. -/
theorem c2_counterexample : "TATAMOTORS" ∉ triedCandidates "TATA MOTORS LTD" := by
  decide

/-- C2 (amended): candidate generation for `"TATA MOTORS LTD"` produces
exactly `["TATA MOTORS LTD", "TATAMOTORSLTD", "TATA MOTOR", "TATA MOTORS",
"TATA MOTORS LTDIND"]`, in this order, after stripping and de-duplication;
the space-stripped form keeps the `LTD` suffix and the suffix-stripped form
keeps the space, so `"TATAMOTORS"` is never generated. -/
theorem c2_theorem : triedCandidates "TATA MOTORS LTD"
    = ["TATA MOTORS LTD", "TATAMOTORSLTD", "TATA MOTOR", "TATA MOTORS",
       "TATA MOTORS LTDIND"] := by
  decide

/-! ## Claim C4: locating the JSON array span -/

/-- C4 counterexample: for the text `"x [1] y ] z"`, which contains exactly
one JSON array `[1]` surrounded by noise, the extractor's regex
`\[[\s\S]*\]` matches from the first `[` to the *last* `]` of the text, so
the parsed span is `"[1] y ]"`, not the balanced span `"[1]"`. -/
theorem c4_counterexample :
    extractJsonSpan "x [1] y ] z" = some "[1] y ]" ∧
    extractJsonSpan "x [1] y ] z" ≠ some "[1]" := by
  decide

/-- C4 (amended): the extractor takes the span from the first `[` to the
last `]` of the text (greedy regex match), not the first balanced bracketed
span; when the noise before the array contains no `[` and the noise after
it contains no `]`, that span is exactly the array. -/
theorem c4_theorem (pre mid post : List Char)
    (h1 : '[' ∉ pre) (h2 : ']' ∉ post)
    (h3 : mid.head? = some '[') (h4 : mid.getLast? = some ']') :
    graspSpan (pre ++ mid ++ post) = some mid := by
  obtain ⟨mtl, rfl⟩ : ∃ t, mid = '[' :: t := by
    cases mid with
    | nil => simp at h3
    | cons a t =>
      simp only [List.head?_cons, Option.some.injEq] at h3
      exact ⟨t, by rw [h3]⟩
  obtain ⟨rt, hrev⟩ : ∃ rt, ('[' :: mtl).reverse = ']' :: rt := by
    have hh : ('[' :: mtl).reverse.head? = some ']' := by
      rw [List.head?_reverse]; exact h4
    cases hrw : ('[' :: mtl).reverse with
    | nil => rw [hrw] at hh; simp at hh
    | cons b bt =>
      rw [hrw] at hh
      simp only [List.head?_cons, Option.some.injEq] at hh
      exact ⟨bt, by rw [hh]⟩
  unfold graspSpan
  have hd1 : (pre ++ ('[' :: mtl) ++ post).dropWhile (fun c => c ≠ '[')
      = ('[' :: mtl) ++ post := by
    rw [List.append_assoc,
      dropWhile_append_of_forall _ pre (('[' :: mtl) ++ post)
        (fun c hc => by
          simp only [decide_eq_true_eq]
          intro heq
          exact h1 (heq ▸ hc)),
      List.cons_append, List.dropWhile_cons]
    simp
  rw [hd1]
  unfold takeToLastRBracket
  have hrev2 : (('[' :: mtl) ++ post).reverse = post.reverse ++ (']' :: rt) := by
    rw [List.reverse_append, hrev]
  rw [hrev2,
    dropWhile_append_of_forall _ post.reverse (']' :: rt)
      (fun c hc => by
        simp only [decide_eq_true_eq]
        intro heq
        exact h2 (heq ▸ (List.mem_reverse.mp hc))),
    List.dropWhile_cons]
  simp only [decide_not]
  norm_num
  constructor
  · simp
  · have hback := congrArg List.reverse hrev
    rw [List.reverse_reverse] at hback
    rw [hback]
    simp [List.reverse_cons]

/-- C4 witness: the amended theorem applied at the spec's §8 example shape
(noise before, one array, noise after), with every hypothesis computed. -/
theorem c4_witness :
    ('[' ∉ "noise before ".data) ∧ (']' ∉ " noise after".data) ∧
    graspSpan ("noise before ".data ++ "[ 1, 2 ]".data ++ " noise after".data)
      = some "[ 1, 2 ]".data :=
  ⟨by decide, by decide,
   c4_theorem "noise before ".data "[ 1, 2 ]".data " noise after".data
     (by decide) (by decide) (by decide) (by decide)⟩

/-! ## Claim C1: unrepairable non-empty symbols -/

/-- Validation oracle that rejects every symbol (concrete fixture). -/
def c1v : String → Bool := fun _ => false

/-- Concrete extracted item with a non-empty symbol (fixture). -/
def c1item : DivItem := ⟨"ABC", "XYZ", "2099-01-01", none, none, none⟩

/-- Reference "today" for the C1 fixtures. -/
def c1today : Date := ⟨2025, 10, 12⟩

/-- C1 counterexample: the claim asserts that an item whose non-empty symbol
fails validation and cannot be repaired is kept in the output with a null
symbol. In fact the loop `continue`s: for a validation oracle that rejects
everything, the item (company "ABC", symbol "XYZ", future ex-date) is
dropped and the extractor returns the empty list. -/
theorem c1_counterexample :
    c1item.nse_symbol ≠ "" ∧
    tryFixSymbol c1v (normalizeSymbol c1item.nse_symbol) = none ∧
    parseItems c1v c1today [some c1item] = [] := by
  decide

/-- C1 (amended): an extracted item whose symbol string is non-empty but
fails live-quote validation and cannot be repaired by `_try_fix_symbol` is
*dropped* from the Response Extractor's output (the loop `continue`s); it is
not kept with a null symbol field. -/
theorem c1_theorem (v : String → Bool) (today : Date) (it : DivItem)
    (hsym : it.nse_symbol ≠ "")
    (hval : v (normalizeSymbol it.nse_symbol) = false)
    (hfix : tryFixSymbol v (normalizeSymbol it.nse_symbol) = none) :
    processItem v today (some it) = none := by
  have hns : normalizeSymbol it.nse_symbol ≠ "" := by
    unfold normalizeSymbol
    by_cases h : it.nse_symbol ≠ "" ∧ ¬ pyEndsWith (pyUpper it.nse_symbol) ".NS"
    · rw [if_pos h]
      intro hc
      have hdata := congrArg String.data hc
      rw [String.data_append] at hdata
      have := (List.append_eq_nil.mp hdata).2
      simp at this
    · rw [if_neg h]; exact hsym
  have hsub : ∀ ex, processItemSym v today it ex = none := by
    intro ex
    simp only [processItemSym]
    rw [if_pos (And.intro hns (by simp [hval])), hfix]
  simp only [processItem]
  by_cases h1 : it.company_name = "" ∨ it.ex_date = ""
  · rw [if_pos h1]
  · rw [if_neg h1]
    cases hpd : parseDate it.ex_date with
    | none => rfl
    | some ex =>
      by_cases hdl : dateLe ex today = true
      · simp [hdl]
      · simp [hdl, hsub ex]

/-- C1 witness: the amended theorem applied at the concrete fixtures. -/
theorem c1_witness :
    c1item.nse_symbol ≠ "" ∧
    processItem c1v c1today (some c1item) = none :=
  ⟨by decide, c1_theorem c1v c1today c1item (by decide) (by decide) (by decide)⟩

/-! ## Claim C7: extractor filtering, day computation, and sort -/

/-- C7: every extracted candidate stems from an item with a non-empty
company name and a parseable `YYYY-MM-DD` ex-date strictly after the
caller-supplied `today` (so an ex-date on or before `today` never yields a
candidate); its `days_to_ex_date` is the ordinal day difference from
`today`; and the final list is the stable ascending sort of the discovery
order by `days_to_ex_date` (sorted, with ties kept in discovery order). -/
theorem c7_theorem (v : String → Bool) (today : Date) (data : List (Option DivItem)) :
    (∀ c ∈ parseItems v today data,
      ∃ it : DivItem, some it ∈ data ∧ it.company_name ≠ "" ∧
        ∃ ex : Date, parseDate it.ex_date = some ex ∧ dateLe ex today = false ∧
          c.company = it.company_name ∧ c.ex_date = ex ∧
          c.days_to_ex_date = ex.ord - today.ord)
    ∧ (parseItems v today data).Pairwise
        (fun a b => a.days_to_ex_date ≤ b.days_to_ex_date)
    ∧ ∀ k : ℤ,
        (parseItems v today data).filter (fun c => decide (c.days_to_ex_date = k))
          = (parseItemsRaw v today data).filter
              (fun c => decide (c.days_to_ex_date = k)) := by
  refine ⟨?_, ?_, ?_⟩
  · intro c hc
    have hc' : c ∈ parseItemsRaw v today data :=
      (sortByKey_perm (fun c : OutCand => c.days_to_ex_date) _).mem_iff.mp hc
    obtain ⟨it?, hmem, hproc⟩ := List.mem_filterMap.mp hc'
    cases it? with
    | none => exact absurd hproc (by simp [processItem])
    | some it =>
      refine ⟨it, hmem, ?_⟩
      have hfields : ∀ ex c', processItemSym v today it ex = some c' →
          c'.company = it.company_name ∧ c'.ex_date = ex ∧
            c'.days_to_ex_date = ex.ord - today.ord := by
        intro ex c' h
        simp only [processItemSym] at h
        by_cases h3 : normalizeSymbol it.nse_symbol ≠ ""
            ∧ ¬ v (normalizeSymbol it.nse_symbol) = true
        · rw [if_pos h3] at h
          cases hfx : tryFixSymbol v (normalizeSymbol it.nse_symbol) with
          | none => rw [hfx] at h; exact absurd h (by simp)
          | some fixed =>
            rw [hfx] at h
            obtain rfl := Option.some.inj h
            exact ⟨rfl, rfl, rfl⟩
        · rw [if_neg h3] at h
          obtain rfl := Option.some.inj h
          exact ⟨rfl, rfl, rfl⟩
      simp only [processItem] at hproc
      by_cases h1 : it.company_name = "" ∨ it.ex_date = ""
      · rw [if_pos h1] at hproc; exact absurd hproc (by simp)
      · rw [if_neg h1] at hproc
        refine ⟨fun hco => h1 (Or.inl hco), ?_⟩
        cases hpd : parseDate it.ex_date with
        | none => rw [hpd] at hproc; exact absurd hproc (by simp)
        | some ex =>
          rw [hpd] at hproc
          refine ⟨ex, rfl, ?_⟩
          by_cases hdl : dateLe ex today = true
          · simp [hdl] at hproc
          · have hdl' : dateLe ex today = false := by simpa using hdl
            simp only [hdl', Bool.false_eq_true, if_false] at hproc
            exact ⟨hdl', hfields ex c hproc⟩
  · exact sortByKey_sorted (fun c : OutCand => c.days_to_ex_date) _
  · intro k
    exact sortByKey_stable (fun c : OutCand => c.days_to_ex_date) k _

/-- Extracted item for the C7 witness (the spec's §8 example). -/
def c7item : DivItem := ⟨"ABC", "ABC", "2099-01-01", none, none, none⟩

/-- Reference "today" for the C7 witness. -/
def c7today : Date := ⟨2025, 1, 1⟩

/-- The candidate the extractor produces for the C7 witness (27028 days from
2025-01-01 to 2099-01-01). -/
def c7cand : OutCand := ⟨"ABC", some "ABC.NS", none, none, none, ⟨2099, 1, 1⟩, 27028⟩

/-- C7 witness: the theorem applied to the spec's example input, with the
produced candidate and its membership computed concretely. -/
theorem c7_witness :
    ∃ it : DivItem, some it ∈ [some c7item] ∧ it.company_name ≠ "" ∧
      ∃ ex : Date, parseDate it.ex_date = some ex ∧ dateLe ex c7today = false ∧
        c7cand.company = it.company_name ∧ c7cand.ex_date = ex ∧
        c7cand.days_to_ex_date = ex.ord - c7today.ord :=
  (c7_theorem (fun _ => true) c7today [some c7item]).1 c7cand (by decide)

/-! ## Inversion lemmas for the dividend scan loop -/

theorem processDivCand_inr {O : Collaborators} {c : InCand} {o : Opp}
    (h : processDivCand O c = Sum.inr o) :
    ∃ sym, c.symbol = some sym ∧
      (O.health sym).status = "success" ∧
      (O.health sym).dividend_health.getD "CAUTION" ≠ "DESPERATE" ∧
      (O.fetchStock sym).status = "success" ∧
      (O.metrics (O.fetchStock sym).closes).status = "success" ∧
      o = divOppRecord O c sym := by
  cases hcs : c.symbol with
  | none => simp [processDivCand, hcs] at h
  | some sym =>
    simp only [processDivCand, hcs] at h
    refine ⟨sym, rfl, ?_⟩
    by_cases h1 : (O.health sym).status = "success"
    case neg => simp [h1] at h
    case pos =>
    by_cases h2 : (O.health sym).dividend_health.getD "CAUTION" = "DESPERATE"
    case pos => simp [h1, h2] at h
    case neg =>
    by_cases h3 : (O.fetchStock sym).status = "success"
    case neg => simp [h1, h2, h3] at h
    case pos =>
    by_cases h4 : (O.metrics (O.fetchStock sym).closes).status = "success"
    case neg => simp [h1, h2, h3, h4] at h
    case pos =>
      refine ⟨h1, h2, h3, h4, ?_⟩
      simp only [h1, h2, h3, h4] at h
      simp at h
      exact h.symm

theorem processDivCand_dataUnavailable {O : Collaborators} {c : InCand} {sym : String}
    (hcs : c.symbol = some sym) (h1 : (O.health sym).status ≠ "success") :
    processDivCand O c = Sum.inl (mkSkip c .dataUnavailable) := by
  simp [processDivCand, hcs, h1]

theorem processDivCand_desperate {O : Collaborators} {c : InCand} {sym : String}
    (hcs : c.symbol = some sym) (h1 : (O.health sym).status = "success")
    (h2 : (O.health sym).dividend_health.getD "CAUTION" = "DESPERATE") :
    processDivCand O c
      = Sum.inl (mkSkip c (.desperate ((O.health sym).health_score.getD 0))) := by
  simp [processDivCand, hcs, h1, h2]

theorem processDivCand_priceFetchFailed {O : Collaborators} {c : InCand} {sym : String}
    (hcs : c.symbol = some sym) (h1 : (O.health sym).status = "success")
    (h2 : (O.health sym).dividend_health.getD "CAUTION" ≠ "DESPERATE")
    (h3 : (O.fetchStock sym).status ≠ "success") :
    processDivCand O c = Sum.inl (mkSkip c .priceFetchFailed) := by
  simp [processDivCand, hcs, h1, h2, h3]

theorem mem_divSkipped {O : Collaborators} {minDays : ℤ} {cands : List InCand}
    {c : InCand} {sk : Skip} (hc : c ∈ filteredCands minDays cands)
    (h : processDivCand O c = Sum.inl sk) :
    sk ∈ divSkipped O minDays cands :=
  List.mem_filterMap.mpr ⟨c, hc, by rw [h]; rfl⟩

theorem mem_divOppsRaw {O : Collaborators} {minDays : ℤ} {cands : List InCand}
    {o : Opp} (h : o ∈ divOppsRaw O minDays cands) :
    ∃ c ∈ filteredCands minDays cands, processDivCand O c = Sum.inr o := by
  obtain ⟨c, hc, hp⟩ := List.mem_filterMap.mp h
  refine ⟨c, hc, ?_⟩
  cases hpc : processDivCand O c with
  | inl s => rw [hpc] at hp; simp at hp
  | inr o' => rw [hpc] at hp; simp at hp; rw [hp]

/-! ## Claim C3: severities in the dividend scan -/

/-- Collaborators whose health assessment hard-fails for every symbol
(C3 fixture). -/
def c3oracle : Collaborators :=
  { fetchStock := fun s => ⟨"error", s, [], [], [], [], none⟩
    health := fun _ => ⟨"error", none, none, []⟩
    metrics := fun _ => ⟨"error", 0, 0, 0⟩
    atr := fun _ _ _ => 0
    fund := fun _ => ⟨"error", ⟨none, none⟩⟩
    rsi := fun _ _ => none
    detect := fun _ _ _ _ _ => ⟨"error", false, none⟩ }

/-- A discovered candidate with a resolved symbol (C3 fixture). -/
def c3cand : InCand := ⟨"XCo", some "X.NS", "2099-01-01", 10, none, none⟩

/-- C3 counterexample: the claim asserts hard fetch failures are recorded in
a per-symbol `errors` collection, with `skipped` reserved for symbols whose
data was available but disqualified them. In fact the dividend scan has no
`errors` collection at all: a hard health-assessment failure lands in
`skipped` (reason "yfinance data not available"), conflating the two
severities the spec distinguishes. -/
theorem c3_counterexample :
    (c3oracle.health "X.NS").status ≠ "success" ∧
    (scanCore c3oracle 3 [c3cand]).skipped_summary
      = [⟨some "X.NS", "XCo", SkipReason.dataUnavailable⟩] := by
  decide

/-- C3 (amended): in the dividend scan, a hard failure of an external data
source for a symbol (health-assessment failure, price-history fetch failure)
is recorded in the `skipped` collection with a distinguishing reason string
("yfinance data not available" / "price history fetch failed"); there is no
separate per-symbol `errors` collection, and the scan continues. -/
theorem c3_theorem (O : Collaborators) (minDays : ℤ) (cands : List InCand)
    (c : InCand) (sym : String) (hc : c ∈ filteredCands minDays cands)
    (hcs : c.symbol = some sym) :
    ((O.health sym).status ≠ "success" →
      mkSkip c .dataUnavailable ∈ divSkipped O minDays cands)
    ∧ ((O.health sym).status = "success" →
       (O.health sym).dividend_health.getD "CAUTION" ≠ "DESPERATE" →
       (O.fetchStock sym).status ≠ "success" →
        mkSkip c .priceFetchFailed ∈ divSkipped O minDays cands) :=
  ⟨fun h1 => mem_divSkipped hc (processDivCand_dataUnavailable hcs h1),
   fun h1 h2 h3 => mem_divSkipped hc (processDivCand_priceFetchFailed hcs h1 h2 h3)⟩

/-- C3 witness: the amended theorem applied at the concrete fixture where
the health assessment hard-fails. -/
theorem c3_witness :
    c3cand ∈ filteredCands 3 [c3cand] ∧
    mkSkip c3cand SkipReason.dataUnavailable ∈ divSkipped c3oracle 3 [c3cand] :=
  ⟨by decide,
   (c3_theorem c3oracle 3 [c3cand] c3cand "X.NS" (by decide) (by decide)).1 (by decide)⟩

/-! ## Claim C5: composite rank score and descending stable sort -/

/-- C5: for every fully analyzed candidate the stored rank score is the
composite formula `health_score + 10·yield (if positive) + 15 (uptrend)
+ 10 (above 50-DMA) + 10 (days-to-ex ≥ 5)`, rounded to one decimal for
display; the opportunity list is sorted descending by this score; an entry
with a strictly greater score appears strictly earlier; and ties keep the
original discovery order (stable sort). In particular two candidates
identical except for `uptrend` differ by 15 points, so the uptrend one
ranks strictly above the other. -/
theorem c5_theorem (O : Collaborators) (minDays : ℤ) (cands : List InCand) :
    (∀ c o, processDivCand O c = Sum.inr o → ∃ sym, c.symbol = some sym ∧
      o.rank_score = roundTo 1 (o.health_score
        + yieldBonus ((O.fund sym).fundamentals.dividendYield)
        + (if o.uptrend then 15 else 0) + (if o.above_50dma then 10 else 0)
        + (if 5 ≤ c.days_to_ex_date then 10 else 0)))
    ∧ (divOpps O minDays cands).Pairwise (fun a b => b.rank_score ≤ a.rank_score)
    ∧ (∀ i j : Fin (divOpps O minDays cands).length,
        ((divOpps O minDays cands).get i).rank_score
          < ((divOpps O minDays cands).get j).rank_score → (j : ℕ) < (i : ℕ))
    ∧ (∀ k : ℚ,
        (divOpps O minDays cands).filter (fun o => decide (o.rank_score = k))
          = (divOppsRaw O minDays cands).filter (fun o => decide (o.rank_score = k))) := by
  have hpair : (divOpps O minDays cands).Pairwise
      (fun a b => b.rank_score ≤ a.rank_score) := by
    have hs := sortByKey_sorted (fun o : Opp => -o.rank_score)
      (divOppsRaw O minDays cands)
    exact hs.imp fun hab => neg_le_neg_iff.mp hab
  refine ⟨?_, hpair, ?_, ?_⟩
  · intro c o h
    obtain ⟨sym, hcs, _, _, _, _, rfl⟩ := processDivCand_inr h
    refine ⟨sym, hcs, ?_⟩
    simp [divOppRecord, rankScore]
  · intro i j hlt
    rcases Nat.lt_trichotomy (i : ℕ) (j : ℕ) with hij | hij | hij
    · have := List.pairwise_iff_get.mp hpair i j hij
      exact absurd hlt (not_lt.mpr this)
    · exact absurd (Fin.ext hij) (by rintro rfl; exact lt_irrefl _ hlt)
    · exact hij
  · intro k
    have hconv : ∀ (l : List Opp),
        l.filter (fun o => decide (-o.rank_score = -k))
          = l.filter (fun o => decide (o.rank_score = k)) := fun l =>
      List.filter_congr fun x _ => by
        rw [decide_eq_decide]; exact neg_inj
    calc (divOpps O minDays cands).filter (fun o => decide (o.rank_score = k))
        = (divOpps O minDays cands).filter (fun o => decide (-o.rank_score = -k)) :=
          (hconv _).symm
      _ = (divOppsRaw O minDays cands).filter (fun o => decide (-o.rank_score = -k)) :=
          sortByKey_stable (fun o : Opp => -o.rank_score) (-k) _
      _ = (divOppsRaw O minDays cands).filter (fun o => decide (o.rank_score = k)) :=
          hconv _

/-- Collaborators for the C5 witness: healthy stock in an uptrend, above the
50-DMA, with positive yield. -/
def c5oracle : Collaborators :=
  { fetchStock := fun s => ⟨"success", s, [100], [101], [99], [1], none⟩
    health := fun _ => ⟨"success", some "HEALTHY", some 40, []⟩
    metrics := fun _ => ⟨"success", 90, 1, 0⟩
    atr := fun _ _ _ => 2
    fund := fun _ => ⟨"success", ⟨some 3, none⟩⟩
    rsi := fun _ _ => none
    detect := fun _ _ _ _ _ => ⟨"error", false, none⟩ }

/-- Candidate for the C5 witness. -/
def c5cand : InCand := ⟨"YCo", some "Y.NS", "2099-01-01", 10, none, none⟩

/-- The opportunity record the C5 witness produces. -/
def c5opp : Opp := divOppRecord c5oracle c5cand "Y.NS"

/-- C5 witness: the rank-score formula instantiated on a concrete fully
analyzed candidate. -/
theorem c5_witness :
    processDivCand c5oracle c5cand = Sum.inr c5opp ∧
    (∃ sym, c5cand.symbol = some sym ∧
      c5opp.rank_score = roundTo 1 (c5opp.health_score
        + yieldBonus ((c5oracle.fund sym).fundamentals.dividendYield)
        + (if c5opp.uptrend then 15 else 0) + (if c5opp.above_50dma then 10 else 0)
        + (if 5 ≤ c5cand.days_to_ex_date then 10 else 0))) :=
  ⟨by decide, (c5_theorem c5oracle 3 [c5cand]).1 c5cand c5opp (by decide)⟩

/-! ## Claim C6: DESPERATE verdicts are excluded -/

/-- C6: no opportunity entry (and in particular no entry of the returned
`top_opportunities`) carries a DESPERATE health verdict; every analyzed
candidate whose successful health assessment is DESPERATE is recorded in
`skipped` instead. -/
theorem c6_theorem (O : Collaborators) (minDays : ℤ) (cands : List InCand) :
    (∀ o ∈ divOpps O minDays cands, o.dividend_health ≠ "DESPERATE")
    ∧ (∀ o ∈ (scanCore O minDays cands).top_opportunities,
        o.dividend_health ≠ "DESPERATE")
    ∧ ∀ c ∈ filteredCands minDays cands, ∀ sym, c.symbol = some sym →
        (O.health sym).status = "success" →
        (O.health sym).dividend_health.getD "CAUTION" = "DESPERATE" →
        mkSkip c (.desperate ((O.health sym).health_score.getD 0))
          ∈ divSkipped O minDays cands := by
  have h1 : ∀ o ∈ divOpps O minDays cands, o.dividend_health ≠ "DESPERATE" := by
    intro o ho
    have ho' : o ∈ divOppsRaw O minDays cands :=
      (sortByKey_perm (fun o : Opp => -o.rank_score) _).mem_iff.mp ho
    obtain ⟨c, hc, hp⟩ := mem_divOppsRaw ho'
    obtain ⟨sym, hcs, hh1, hh2, hh3, hh4, rfl⟩ := processDivCand_inr hp
    simpa [divOppRecord] using hh2
  refine ⟨h1, ?_, ?_⟩
  · intro o ho
    exact h1 o (List.take_subset 8 _ ho)
  · intro c hc sym hcs hsucc hdesp
    exact mem_divSkipped hc (processDivCand_desperate hcs hsucc hdesp)

/-- Collaborators for the C6 witness: every health verdict is DESPERATE. -/
def c6oracle : Collaborators :=
  { fetchStock := fun s => ⟨"error", s, [], [], [], [], none⟩
    health := fun _ => ⟨"success", some "DESPERATE", some 5, []⟩
    metrics := fun _ => ⟨"error", 0, 0, 0⟩
    atr := fun _ _ _ => 0
    fund := fun _ => ⟨"error", ⟨none, none⟩⟩
    rsi := fun _ _ => none
    detect := fun _ _ _ _ _ => ⟨"error", false, none⟩ }

/-- Candidate for the C6 witness. -/
def c6cand : InCand := ⟨"ZCo", some "Z.NS", "2099-01-01", 7, none, none⟩

/-- C6 witness: a concrete DESPERATE-verdict candidate is recorded in
`skipped`. -/
theorem c6_witness :
    mkSkip c6cand (SkipReason.desperate ((c6oracle.health "Z.NS").health_score.getD 0))
      ∈ divSkipped c6oracle 3 [c6cand] :=
  (c6_theorem c6oracle 3 [c6cand]).2.2 c6cand (by decide) "Z.NS"
    (by decide) (by decide) (by decide)

/-! ## Claim C10: envelope truncations and counts -/

/-- C10: the success envelope truncates `top_opportunities` to at most 8
entries and `skipped_summary` to at most 10, while `opportunities_count`
and `skipped_count` are the lengths of the full, untruncated lists. -/
theorem c10_theorem (O : Collaborators) (minDays : ℤ) (cands : List InCand) :
    (scanCore O minDays cands).top_opportunities.length ≤ 8
    ∧ (scanCore O minDays cands).skipped_summary.length ≤ 10
    ∧ (scanCore O minDays cands).opportunities_count
        = (divOpps O minDays cands).length
    ∧ (scanCore O minDays cands).skipped_count
        = (divSkipped O minDays cands).length :=
  ⟨List.length_take_le 8 _, List.length_take_le 10 _, rfl, rfl⟩

/-! ## Claim C8: breakout scan isolates per-symbol fetch failures -/

theorem breakoutLoop_fst (O : Collaborators) (syms : List String) :
    (breakoutLoop O syms).1
      = syms.filter (fun s => decide ((O.fetchStock s).status = "success")) := by
  induction syms with
  | nil => rfl
  | cons s rest ih =>
    simp only [breakoutLoop, List.filter_cons]
    by_cases hs : (O.fetchStock s).status = "success"
    · rw [if_neg (by simp [hs])]
      by_cases hd : (O.detect (O.fetchStock s).symbol (O.fetchStock s).closes
          (O.fetchStock s).volumes (O.fetchStock s).highs (O.fetchStock s).lows).status
            = "success"
          ∧ (O.detect (O.fetchStock s).symbol (O.fetchStock s).closes
              (O.fetchStock s).volumes (O.fetchStock s).highs
              (O.fetchStock s).lows).is_breakout = true
      · rw [if_pos hd]; simp [hs, ih]
      · rw [if_neg hd]; simp [hs, ih]
    · rw [if_pos (by simp [hs])]
      simp [hs, ih]

theorem breakoutLoop_errors (O : Collaborators) (syms : List String) :
    (breakoutLoop O syms).2.1
      = (syms.filter (fun s => decide (¬ (O.fetchStock s).status = "success"))).map
          (fun s => s ++ ": " ++ (O.fetchStock s).error_message.getD "fetch failed") := by
  induction syms with
  | nil => rfl
  | cons s rest ih =>
    simp only [breakoutLoop, List.filter_cons]
    by_cases hs : (O.fetchStock s).status = "success"
    · rw [if_neg (by simp [hs])]
      by_cases hd : (O.detect (O.fetchStock s).symbol (O.fetchStock s).closes
          (O.fetchStock s).volumes (O.fetchStock s).highs (O.fetchStock s).lows).status
            = "success"
          ∧ (O.detect (O.fetchStock s).symbol (O.fetchStock s).closes
              (O.fetchStock s).volumes (O.fetchStock s).highs
              (O.fetchStock s).lows).is_breakout = true
      · rw [if_pos hd]; simp [hs, ih]
      · rw [if_neg hd]; simp [hs, ih]
    · rw [if_pos (by simp [hs])]
      simp [hs, ih]

theorem length_filter_prop_not {α : Type} (p : α → Prop) [DecidablePred p]
    (l : List α) :
    (l.filter (fun a => decide (p a))).length
      + (l.filter (fun a => decide (¬ p a))).length = l.length := by
  induction l with
  | nil => rfl
  | cons a t ih =>
    rw [List.filter_cons, List.filter_cons]
    by_cases h : p a
    · rw [if_pos (by simpa using h), if_neg (by simpa using h)]
      simp only [List.length_cons]
      omega
    · rw [if_neg (by simpa using h), if_pos (by simpa using h)]
      simp only [List.length_cons]
      omega

/-- C8: the breakout scan never aborts on a per-symbol fetch failure: it
always returns the success envelope, each failed symbol is recorded in
`scan_errors` while scanning continues, and for a universe of 5 symbols
with exactly 2 failed fetches, `stocks_scanned` is 3 and the error list has
length 2. -/
theorem c8_theorem (O : Collaborators) (syms : List String)
    (h5 : syms.length = 5)
    (h2 : (syms.filter (fun s => decide (¬ (O.fetchStock s).status = "success"))).length
      = 2) :
    (scanWatchlistBreakouts O syms "").status = "success"
    ∧ (scanWatchlistBreakouts O syms "").stocks_scanned = 3
    ∧ ((scanWatchlistBreakouts O syms "").scan_errors.getD []).length = 2 := by
  have hred : scanWatchlistBreakouts O syms "" = scanBreakoutCore O syms := rfl
  have hlen : ((breakoutLoop O syms).2.1).length = 2 := by
    rw [breakoutLoop_errors, List.length_map, h2]
  have hado := length_filter_prop_not
    (fun s => (O.fetchStock s).status = "success") syms
  have hsc : ((breakoutLoop O syms).1).length = 3 := by
    rw [breakoutLoop_fst]
    omega
  refine ⟨by rw [hred]; rfl, ?_, ?_⟩
  · rw [hred]
    exact hsc
  · rw [hred]
    show ((if (breakoutLoop O syms).2.1 = [] then none
        else some ((breakoutLoop O syms).2.1)).getD []).length = 2
    rw [if_neg (by intro hnil; rw [hnil] at hlen; simp at hlen)]
    exact hlen

/-- Collaborators for the C8 witness: fetches fail exactly for symbols
"DDD" and "EEE". -/
def c8oracle : Collaborators :=
  { fetchStock := fun s =>
      if s = "DDD" ∨ s = "EEE" then ⟨"error", s, [], [], [], [], some "boom"⟩
      else ⟨"success", s, [1], [1], [1], [1], none⟩
    health := fun _ => ⟨"error", none, none, []⟩
    metrics := fun _ => ⟨"error", 0, 0, 0⟩
    atr := fun _ _ _ => 0
    fund := fun _ => ⟨"error", ⟨none, none⟩⟩
    rsi := fun _ _ => none
    detect := fun _ _ _ _ _ => ⟨"success", false, none⟩ }

/-- The 5-symbol universe of the C8 witness. -/
def c8syms : List String := ["AAA", "BBB", "CCC", "DDD", "EEE"]

/-- C8 witness: the theorem applied to the concrete 5-symbol universe with
2 failing fetches. -/
theorem c8_witness :
    c8syms.length = 5 ∧
    (scanWatchlistBreakouts c8oracle c8syms "").status = "success"
    ∧ (scanWatchlistBreakouts c8oracle c8syms "").stocks_scanned = 3
    ∧ ((scanWatchlistBreakouts c8oracle c8syms "").scan_errors.getD []).length = 2 :=
  ⟨by decide, c8_theorem c8oracle c8syms (by decide) (by decide)⟩

/-! ## Claim C9: stop-distance heuristics -/

/-- Collaborators for the C9 fixtures: 60 days of price 1, below a 50-DMA of
2, RSI 30, ATR 10 — so `close - 0.8·atr = -7` is clamped to the 0.01 floor. -/
def c9oracle : Collaborators :=
  { fetchStock := fun s =>
      ⟨"success", s, List.replicate 60 1, List.replicate 60 1,
        List.replicate 60 1, [], none⟩
    health := fun _ => ⟨"error", none, none, []⟩
    metrics := fun _ => ⟨"success", 2, 0, 0⟩
    atr := fun _ _ _ => 10
    fund := fun _ => ⟨"error", ⟨none, none⟩⟩
    rsi := fun _ _ => some 30
    detect := fun _ _ _ _ _ => ⟨"error", false, none⟩ }

/-- The candidate the oversold scan produces for the C9 fixtures. -/
def c9cand : OsCand := ⟨"X", 1, 30, 2, true, 50, 10, 1/100⟩

/-- C9 counterexample: the claim asserts the oversold-bounce stop *equals*
`entry - 0.8·ATR`. The code floors the stop at 0.01
(`max(0.01, close - 0.8*atr)`): with close 1 and ATR 10 the scan produces a
candidate whose stop is 0.01, not `1 - 0.8·10 = -7`. -/
theorem c9_counterexample :
    oversoldCands c9oracle 35 true ["X"] = [c9cand] ∧
    c9cand.suggested_stop ≠ c9cand.close - 4/5 * c9cand.atr := by
  decide

theorem oversoldTail_some {O : Collaborators} {rsiMax : ℚ} {requireBelow : Bool}
    {sym : String} {r : ℚ} {cand : OsCand}
    (h : oversoldTail O rsiMax requireBelow sym r = some cand) :
    cand.suggested_stop = roundTo 2 (max (1/100)
      ((O.fetchStock sym).closes.getLastD 0
        - 4/5 * O.atr (O.fetchStock sym).highs (O.fetchStock sym).lows
            (O.fetchStock sym).closes)) := by
  simp only [oversoldTail] at h
  by_cases h2 : rsiMax < r
  · simp [h2] at h
  · rw [if_neg h2] at h
    by_cases h3 : (O.metrics (O.fetchStock sym).closes).status = "success"
    · rw [if_neg (by simp [h3])] at h
      by_cases h4 : requireBelow = true
          ∧ ¬ (O.fetchStock sym).closes.getLastD 0
              < (O.metrics (O.fetchStock sym).closes).dma_50
      · rw [if_pos h4] at h; simp at h
      · rw [if_neg h4] at h
        obtain rfl := Option.some.inj h
        rfl
    · rw [if_pos (by simp [h3])] at h; simp at h

theorem oversoldStep_some {O : Collaborators} {rsiMax : ℚ} {requireBelow : Bool}
    {sym : String} {cand : OsCand}
    (h : oversoldStep O rsiMax requireBelow sym = some cand) :
    cand.suggested_stop = roundTo 2 (max (1/100)
      ((O.fetchStock sym).closes.getLastD 0
        - 4/5 * O.atr (O.fetchStock sym).highs (O.fetchStock sym).lows
            (O.fetchStock sym).closes)) := by
  simp only [oversoldStep] at h
  by_cases h1 : (O.fetchStock sym).closes.length < 60
  · simp [h1] at h
  · rw [if_neg h1] at h
    cases hr : O.rsi (O.fetchStock sym).closes 14 with
    | none => rw [hr] at h; simp at h
    | some r =>
      rw [hr] at h
      have h' : oversoldTail O rsiMax requireBelow sym r = some cand := h
      exact oversoldTail_some h'

/-- C9 (amended): every oversold-bounce candidate's suggested stop is
`max(0.01, close - 0.8·ATR)` rounded to two decimals (the tighter
mean-reversion multiplier, floored at 0.01), and every dividend
opportunity's suggested entry is the last close and its stop is
`close - 1.5·ATR` rounded to two decimals (no floor). -/
theorem c9_theorem (O : Collaborators) (rsiMax : ℚ) (requireBelow : Bool)
    (symbols : List String) :
    (∀ cand ∈ oversoldCands O rsiMax requireBelow symbols,
      ∃ sym ∈ symbols, oversoldStep O rsiMax requireBelow sym = some cand ∧
        cand.suggested_stop = roundTo 2 (max (1/100)
          ((O.fetchStock sym).closes.getLastD 0
            - 4/5 * O.atr (O.fetchStock sym).highs (O.fetchStock sym).lows
                (O.fetchStock sym).closes)))
    ∧ ∀ c o, processDivCand O c = Sum.inr o → ∃ sym, c.symbol = some sym ∧
        o.suggested_entry = roundTo 2 ((O.fetchStock sym).closes.getLastD 0) ∧
        o.suggested_stop = roundTo 2 ((O.fetchStock sym).closes.getLastD 0
          - 3/2 * O.atr (O.fetchStock sym).highs (O.fetchStock sym).lows
              (O.fetchStock sym).closes) := by
  constructor
  · intro cand hcand
    have hraw : cand ∈ oversoldCandsRaw O rsiMax requireBelow symbols :=
      (sortByKey_perm (fun c : OsCand => c.rsi) _).mem_iff.mp hcand
    obtain ⟨sym, hsym, hstep⟩ := List.mem_filterMap.mp hraw
    exact ⟨sym, List.mem_of_mem_filter hsym, hstep, oversoldStep_some hstep⟩
  · intro c o h
    obtain ⟨sym, hcs, _, _, _, _, rfl⟩ := processDivCand_inr h
    exact ⟨sym, hcs, by simp [divOppRecord], by simp [divOppRecord]⟩

/-- C9 witness: the amended stop formula instantiated on the concrete
clamped candidate. -/
theorem c9_witness :
    c9cand ∈ oversoldCands c9oracle 35 true ["X"] ∧
    (∃ sym ∈ ["X"], oversoldStep c9oracle 35 true sym = some c9cand ∧
      c9cand.suggested_stop = roundTo 2 (max (1/100)
        ((c9oracle.fetchStock sym).closes.getLastD 0
          - 4/5 * c9oracle.atr (c9oracle.fetchStock sym).highs
              (c9oracle.fetchStock sym).lows (c9oracle.fetchStock sym).closes))) :=
  ⟨by decide, (c9_theorem c9oracle 35 true ["X"]).1 c9cand (by decide)⟩

end TraderCopilot
